import Mathlib

/-!
Shallow embedding, in Lean 4, of the core of the VoxID speech server
(Go sources: the speaker-embedding manager in package `speaker`, the
Silero VAD instance pool in package `pool`, the session manager in
package `session`, and the WebSocket read loop in package `ws`).

Audio samples and embedding components (float32 in the Go code) are
modelled as real numbers; Go machine floats are idealized as exact real
arithmetic.  Go maps from strings are modelled as functions into
`Option`.  Side effects (the external embedding extractor, the external
VAD detector, file-system writes) are made explicit: each call site
receives the outcome of the external operation as a parameter, and
file-system mutations are returned as an explicit trace of operations.
All state-passing is sequential: one operation runs to completion at a
time, which resolves the Go `select` races deterministically (noted at
each spot where it matters).
-/

namespace VoxID

/-! ## Speaker manager (package `speaker`)

Data model of `SpeakerData`, `SpeakerDatabase` and `Manager` from the
speaker package, together with the operations named in the claims:
`cosineSimilarity`, `calculateSimilarity`, `RegisterSpeaker`,
`IdentifySpeaker`, `VerifySpeaker`, `DeleteSpeaker`, `saveDatabase`. -/

/-- SpeakerData mirrors the Go struct: id, display name, the ordered
list of embedding vectors, creation/update timestamps (nanoseconds,
modelled as integers) and the sample count. -/
structure SpeakerData where
  id : String
  name : String
  embeddings : List (List ℝ)
  createdAt : ℤ
  updatedAt : ℤ
  sampleCount : ℤ

/-- SpeakerDatabase mirrors the Go struct: a map from speaker ID to
record, a version string and a last-updated timestamp.  The Go map is
modelled as a function into `Option`. -/
structure SpeakerDatabase where
  speakers : String → Option SpeakerData
  version : String
  updatedAt : ℤ

/-- Outcome of one call to the external embedding extractor
(`extractor.IsReady` / `extractor.Compute` in Go): either the stream is
not ready after the audio was submitted, or a vector was computed. -/
inductive ExtractOutcome where
  | notReady
  | computed (embedding : List ℝ)

/-- Error taxonomy of the speaker manager, one constructor per distinct
`fmt.Errorf` site reachable from the modelled operations. -/
inductive SpeakerErr where
  | insufficientAudio
  | extractFailed
  | notFound (id : String)
  | persistFailed
  deriving DecidableEq

/-- File-system operations performed by the persistence layer.  A write
stores a (decoded) database value at a path; a rename moves a path. -/
inductive FsOp where
  | write (path : String) (content : SpeakerDatabase)
  | rename (src dst : String)

/-- Whether a file-system operation is a rename. -/
def FsOp.isRename : FsOp → Bool
  | .write _ _ => false
  | .rename _ _ => true

/-- Manager mirrors the Go struct: the database, the contents of the
external in-memory index (the sherpa SpeakerEmbeddingManager, as a list
of RegisterV entries, most recent first), the decoded content of the
file at `dbPath` (`none` when absent), the path and the threshold. -/
structure Manager where
  database : SpeakerDatabase
  index : List (String × List (List ℝ))
  disk : Option SpeakerDatabase
  dbPath : String
  threshold : ℝ

/-- cosineSimilarity translates the Go function of the same name: zero
on length mismatch, zero when either squared norm is zero, otherwise
the dot product over the product of the norms. -/
noncomputable def cosineSimilarity (a b : List ℝ) : ℝ :=
  if a.length ≠ b.length then 0
  else
    let dotProduct := (List.zip a b).foldl (fun acc p => acc + p.1 * p.2) 0
    let normA := a.foldl (fun acc x => acc + x * x) 0
    let normB := b.foldl (fun acc x => acc + x * x) 0
    if normA = 0 ∨ normB = 0 then 0
    else dotProduct / (Real.sqrt normA * Real.sqrt normB)

/-- calculateSimilarity translates `Manager.calculateSimilarity`: zero
for an empty stored list, otherwise a fold that keeps the running
maximum (starting from 0) of the cosine similarity of the query
against each stored vector. -/
noncomputable def calculateSimilarity (query : List ℝ) (stored : List (List ℝ)) : ℝ :=
  if stored.isEmpty then 0
  else
    stored.foldl
      (fun maxSimilarity embedding =>
        let similarity := cosineSimilarity query embedding
        if similarity > maxSimilarity then similarity else maxSimilarity)
      0

/-- extractEmbedding translates `Manager.extractEmbedding`, with the
external extractor call abstracted into its outcome: a not-ready stream
yields the insufficient-audio error, an empty computed vector yields
the extraction-failure error, otherwise the vector is returned. -/
def extractEmbedding (outcome : ExtractOutcome) : Except SpeakerErr (List ℝ) :=
  match outcome with
  | .notReady => .error .insufficientAudio
  | .computed embedding =>
      if embedding.isEmpty then .error .extractFailed else .ok embedding

/-- Modelled from the spec: `RegisterV` of the external sherpa
SpeakerEmbeddingManager (not part of this repository) registers the
complete vector list for a speaker, replacing any previous entry. -/
def indexRegisterV (idx : List (String × List (List ℝ))) (speakerID : String)
    (embeddings : List (List ℝ)) : List (String × List (List ℝ)) :=
  (speakerID, embeddings) :: idx.filter (fun e => e.1 ≠ speakerID)

/-- Modelled from the spec: `Remove` of the external sherpa
SpeakerEmbeddingManager drops the entry of one speaker. -/
def indexRemove (idx : List (String × List (List ℝ))) (speakerID : String) :
    List (String × List (List ℝ)) :=
  idx.filter (fun e => e.1 ≠ speakerID)

/-- Modelled from the spec: `Search` of the external sherpa
SpeakerEmbeddingManager returns the best-scoring registered speaker
when its score reaches the threshold, and the empty string when there
is no match (in particular on an empty index). -/
noncomputable def searchIndex (idx : List (String × List (List ℝ)))
    (embedding : List ℝ) (threshold : ℝ) : String :=
  let best := idx.foldl
    (fun acc e =>
      let score := calculateSimilarity embedding e.2
      match acc with
      | none => some (e.1, score)
      | some b => if score > b.2 then some (e.1, score) else acc)
    none
  match best with
  | none => ""
  | some b => if b.2 ≥ threshold then b.1 else ""

/-- saveDatabase translates `Manager.saveDatabase`: stamp the database
with the current time, marshal it, and write it directly to `dbPath`
with `ioutil.WriteFile` (there is no temporary file and no rename in
the Go code).  The outcome of the write is a parameter; on failure the
on-disk file is unmodified and the persistence error is returned.  The
function returns the error outcome, the new manager state, and the
trace of file-system operations performed. -/
def saveDatabase (m : Manager) (now : ℤ) (writeOk : Bool) :
    Except SpeakerErr Unit × Manager × List FsOp :=
  let db := { m.database with updatedAt := now }
  let m' := { m with database := db }
  if writeOk then
    (.ok (), { m' with disk := some db }, [.write m.dbPath db])
  else
    (.error .persistFailed, m', [])

/-- RegisterSpeaker translates `Manager.RegisterSpeaker`: extract one
embedding, create the record when absent, append the embedding, bump
the sample count and timestamps, overwrite the name, re-register the
full vector list with the in-memory index, then persist. -/
def RegisterSpeaker (m : Manager) (speakerID speakerName : String)
    (outcome : ExtractOutcome) (now : ℤ) (writeOk : Bool) :
    Except SpeakerErr Unit × Manager × List FsOp :=
  match extractEmbedding outcome with
  | .error e => (.error e, m, [])
  | .ok embedding =>
    let base : SpeakerData :=
      match m.database.speakers speakerID with
      | some d => d
      | none =>
          { id := speakerID, name := speakerName, embeddings := []
            createdAt := now, updatedAt := now, sampleCount := 0 }
    let rec' : SpeakerData :=
      { base with
        embeddings := base.embeddings ++ [embedding]
        updatedAt := now
        sampleCount := base.sampleCount + 1
        name := speakerName }
    let db := { m.database with
                speakers := fun k =>
                  if k = speakerID then some rec' else m.database.speakers k }
    let m' := { m with database := db
                       index := indexRegisterV m.index speakerID rec'.embeddings }
    saveDatabase m' now writeOk

/-- Result structure of IdentifySpeaker, mirroring the Go struct. -/
structure IdentifyResult where
  identified : Bool
  speakerID : String
  speakerName : String
  confidence : ℝ
  threshold : ℝ

/-- Result structure of VerifySpeaker, mirroring the Go struct. -/
structure VerifyResult where
  speakerID : String
  speakerName : String
  verified : Bool
  confidence : ℝ
  threshold : ℝ

/-- IdentifySpeaker translates `Manager.IdentifySpeaker`: extract the
query embedding, ask the in-memory index for the best match at the
threshold, and fill in the result; when the index reports no match (or
the matched ID is not in the database map) the not-identified result is
returned without error.  The method takes the read side of the lock and
performs no writes, so no state is returned. -/
noncomputable def IdentifySpeaker (m : Manager) (outcome : ExtractOutcome) :
    Except SpeakerErr IdentifyResult :=
  match extractEmbedding outcome with
  | .error e => .error e
  | .ok embedding =>
    let speakerID := searchIndex m.index embedding m.threshold
    let base : IdentifyResult :=
      { identified := false, speakerID := "", speakerName := ""
        confidence := 0, threshold := m.threshold }
    if speakerID ≠ "" then
      match m.database.speakers speakerID with
      | some d =>
          .ok { identified := true, speakerID := speakerID, speakerName := d.name
                confidence := calculateSimilarity embedding d.embeddings
                threshold := m.threshold }
      | none => .ok base
    else .ok base

/-- VerifySpeaker translates `Manager.VerifySpeaker`: require the
record to exist (not-found error otherwise), extract the embedding,
compute the maximal cosine against the record, and compare with the
threshold.  The resulting manager state is returned to make explicit
that the method body performs no mutation. -/
noncomputable def VerifySpeaker (m : Manager) (speakerID : String)
    (outcome : ExtractOutcome) : Except SpeakerErr VerifyResult × Manager :=
  match m.database.speakers speakerID with
  | none => (.error (.notFound speakerID), m)
  | some d =>
    match extractEmbedding outcome with
    | .error e => (.error e, m)
    | .ok embedding =>
      let confidence := calculateSimilarity embedding d.embeddings
      (.ok { speakerID := speakerID, speakerName := d.name
             verified := confidence ≥ m.threshold
             confidence := confidence, threshold := m.threshold }, m)

/-- DeleteSpeaker translates `Manager.DeleteSpeaker`: require the
record to exist, remove it from the database map and from the in-memory
index, then persist. -/
def DeleteSpeaker (m : Manager) (speakerID : String) (now : ℤ) (writeOk : Bool) :
    Except SpeakerErr Unit × Manager × List FsOp :=
  match m.database.speakers speakerID with
  | none => (.error (.notFound speakerID), m, [])
  | some _ =>
    let db := { m.database with
                speakers := fun k =>
                  if k = speakerID then none else m.database.speakers k }
    let m' := { m with database := db, index := indexRemove m.index speakerID }
    saveDatabase m' now writeOk

/-! ## Silero VAD pool (package `pool`)

State machine for `SileroVADPool`.  Instances are identified by
handles (natural numbers); per-handle fields (the Go `ID`, the atomic
in-use flag, the last-used stamp, liveness of the underlying detector)
are functions out of the handle.  `instances` is the master list (the
Go `p.instances` slice, which only `Initialize` appends to), and
`available` is the buffered channel of capacity `poolSize`, head first.
The semantics is sequential: every operation runs atomically, so the
compare-and-swap on the in-use flag of a dequeued instance always finds
the flag at 0, and `Get` times out exactly when the channel is empty.
When the channel is empty and the pool is shutting down, the Go
`select` would pick the cancelled context ahead of the 100 ms timer;
with something available the dequeue is taken. -/

/-- Pool state, mirroring `SileroVADPool` plus the per-instance fields
of `SileroVADInstance`.  `live h = false` records that `Destroy` was
called on handle `h`. -/
structure PoolState where
  poolSize : ℕ
  instances : List ℕ
  available : List ℕ
  inUse : ℕ → Bool
  goID : ℕ → ℤ
  lastUsed : ℕ → ℤ
  live : ℕ → Bool
  nextHandle : ℕ
  shutdown : Bool
  totalCreated : ℤ
  totalReused : ℤ
  totalActive : ℤ

/-- Error returned by `Get` when the pool context is cancelled. -/
inductive PoolErr where
  | shuttingDown
  deriving DecidableEq

namespace Pool

/-- createNewInstance translates `SileroVADPool.createNewInstance`: a
fresh detector wrapped with `ID = -1` and in-use flag already 1,
counted in `totalCreated` and `totalActive` but never added to the
master list or the channel.  Construction of the external detector is
assumed to succeed. -/
def createNewInstance (p : PoolState) (now : ℤ) : Except PoolErr ℕ × PoolState :=
  let h := p.nextHandle
  (.ok h,
    { p with
      nextHandle := p.nextHandle + 1
      inUse := fun k => if k = h then true else p.inUse k
      goID := fun k => if k = h then -1 else p.goID k
      lastUsed := fun k => if k = h then now else p.lastUsed k
      live := fun k => if k = h then true else p.live k
      totalCreated := p.totalCreated + 1
      totalActive := p.totalActive + 1 })

/-- getLoop is the body of `SileroVADPool.Get`: dequeue and
compare-and-swap the in-use flag 0 to 1; on a lost race re-enqueue
(non-blocking) and retry; on an empty channel fail if shutting down and
otherwise time out into a transient instance.  The recursion of the Go
code is bounded here by explicit fuel; when the fuel runs out the retry
is treated as the Go timeout (a transient instance is created). -/
def getLoop (now : ℤ) : ℕ → PoolState → Except PoolErr ℕ × PoolState
  | fuel, p =>
    match p.available with
    | [] =>
        if p.shutdown then (.error .shuttingDown, p)
        else createNewInstance p now
    | h :: rest =>
        if p.inUse h = false then
          (.ok h,
            { p with
              available := rest
              inUse := fun k => if k = h then true else p.inUse k
              lastUsed := fun k => if k = h then now else p.lastUsed k
              totalReused := p.totalReused + 1
              totalActive := p.totalActive + 1 })
        else
          let p' := { p with
                      available := if rest.length < p.poolSize then rest ++ [h] else rest }
          match fuel with
          | 0 =>
              if p'.shutdown then (.error .shuttingDown, p')
              else createNewInstance p' now
          | fuel' + 1 => getLoop now fuel' p'

/-- Get translates `SileroVADPool.Get`. -/
def Get (p : PoolState) (now : ℤ) : Except PoolErr ℕ × PoolState :=
  getLoop now p.available.length p

/-- Put translates `SileroVADPool.Put`: a nil instance is a no-op;
compare-and-swap the in-use flag 1 to 0 (a no-op with a warning when
the flag was already 0), stamp last-used, decrement `totalActive`,
reset the instance, then enqueue non-blocking into the channel — on a
full channel the instance is destroyed instead.  There is no special
case for transient instances (`ID = -1`). -/
def Put (p : PoolState) (inst : Option ℕ) (now : ℤ) : PoolState :=
  match inst with
  | none => p
  | some h =>
    if p.inUse h then
      let p' := { p with
                  inUse := fun k => if k = h then false else p.inUse k
                  lastUsed := fun k => if k = h then now else p.lastUsed k
                  totalActive := p.totalActive - 1 }
      if p'.available.length < p'.poolSize then
        { p' with available := p'.available ++ [h] }
      else
        { p' with live := fun k => if k = h then false else p'.live k }
    else p

/-- Statistics record returned by `SileroVADPool.GetStats` (the fields
of the Go string-keyed map that the claims mention). -/
structure Stats where
  poolSize : ℕ
  totalInstances : ℕ
  availableCount : ℕ
  activeCount : ℤ
  totalCreated : ℤ
  totalReused : ℤ

/-- GetStats translates `SileroVADPool.GetStats`: `total_instances` is
the length of the master list, `available_count` the channel length,
`active_count` the `totalActive` counter. -/
def GetStats (p : PoolState) : Stats :=
  { poolSize := p.poolSize
    totalInstances := p.instances.length
    availableCount := p.available.length
    activeCount := p.totalActive
    totalCreated := p.totalCreated
    totalReused := p.totalReused }

/-- initPool is the pool state after `NewSileroVADPool` plus
`Initialize` when `created` of the `poolSize` parallel constructions
succeeded (Initialize succeeds iff at least one did): each built
instance is appended to the master list and enqueued, with its in-use
flag 0.  Handles are numbered `0, …, created-1`. -/
def initPool (poolSize created : ℕ) (now : ℤ) : PoolState :=
  { poolSize := poolSize
    instances := List.range created
    available := List.range created
    inUse := fun _ => false
    goID := fun k => (k : ℤ)
    lastUsed := fun _ => now
    live := fun k => decide (k < created)
    nextHandle := created
    shutdown := false
    totalCreated := (created : ℤ)
    totalReused := 0
    totalActive := 0 }

/-- Reach marks the pool states reachable from an initialized pool by
any sequence of Get and Put calls (Put of an arbitrary handle, or of
nil). -/
inductive Reach : PoolState → Prop where
  | init (poolSize created : ℕ) (now : ℤ) (h1 : 1 ≤ created)
      (h2 : created ≤ poolSize) : Reach (initPool poolSize created now)
  | step_get {p : PoolState} (now : ℤ) : Reach p → Reach (Get p now).2
  | step_put {p : PoolState} (inst : Option ℕ) (now : ℤ) : Reach p →
      Reach (Put p inst now)

/-- Number of instances whose in-use flag is 1. -/
def inUseCount (p : PoolState) : ℕ :=
  ((Finset.range p.nextHandle).filter (fun h => p.inUse h = true)).card

/-- Number of transient instances currently outstanding: handed out
with `ID = -1` and not yet returned. -/
def transientCount (p : PoolState) : ℕ :=
  ((Finset.range p.nextHandle).filter
    (fun h => p.inUse h = true ∧ p.goID h = -1)).card

end Pool

/-! ## Session manager and streaming read loop (packages `session`, `ws`)

Model of `Manager.ProcessAudioData`, its Silero segment-draining path
`Manager.processSileroVAD`, and the per-frame body of the
`HandleWebSocket` read loop.  The external detector is abstracted by
the list of segments drained from its queue after the frame is
submitted (`none` models a nil segment pointer); the concurrent races
on the closed flag and on the VAD deadline are abstracted by the
booleans `closedDuring` and `vadTimedOut`. -/

/-- Session state: the closed flag and the lazily assigned VAD
instance (a pool handle). -/
structure SessionState where
  closed : Bool
  vad : Option ℕ

/-- Configuration fields of `config.GlobalConfig` read by the modelled
session code. -/
structure SessionConfig where
  sampleRate : ℕ
  normalizeFactor : ℝ
  minSpeechDuration : ℝ
  maxSpeechDuration : ℝ
  maxMessageSize : ℕ

/-- Error taxonomy of `Manager.ProcessAudioData` and
`Manager.processSileroVAD`, one constructor per `fmt.Errorf` site. -/
inductive SessionErr where
  | sessionClosed
  | poolGetFailed
  | emptyAudio
  | invalidLength (n : ℕ)
  | vadTimeout
  | closedDuringProcessing
  deriving DecidableEq

/-- toInt16 decodes one little-endian signed 16-bit sample from two
bytes, as `int16(lo) | int16(hi)<<8` does in the Go code. -/
def toInt16 (lo hi : Fin 256) : ℤ :=
  let v : ℕ := (lo : ℕ) + 256 * (hi : ℕ)
  if v < 32768 then (v : ℤ) else (v : ℤ) - 65536

/-- bytesToSamples is the conversion loop of `ProcessAudioData`: each
consecutive byte pair becomes one float sample, divided by the
configured normalization factor.  (The Go loop runs `len/2` times, so
a trailing odd byte would be ignored; validation rules it out.) -/
noncomputable def bytesToSamples (normalizeFactor : ℝ) : List (Fin 256) → List ℝ
  | lo :: hi :: rest =>
      ((toInt16 lo hi : ℝ) / normalizeFactor) :: bytesToSamples normalizeFactor rest
  | _ => []

/-- collectSegments is the segment-draining loop of
`Manager.processSileroVAD`: nil or empty segments are skipped; a
mid-processing close aborts with an error (so no task at all is
spawned); a segment shorter than `min_speech_duration` seconds is
skipped; a segment longer than `max_speech_duration` seconds is
truncated to `int(max_speech_duration * sampleRate)` samples; the
survivors, in order, are the sample lists handed to the spawned
recognition tasks. -/
noncomputable def collectSegments (cfg : SessionConfig) (closedDuring : Bool) :
    List (Option (List ℝ)) → Except SessionErr (List (List ℝ))
  | [] => .ok []
  | none :: rest => collectSegments cfg closedDuring rest
  | some s :: rest =>
    if s.length = 0 then collectSegments cfg closedDuring rest
    else if closedDuring then .error .closedDuringProcessing
    else
      let duration : ℝ := (s.length : ℝ) / (cfg.sampleRate : ℝ)
      if duration < cfg.minSpeechDuration then collectSegments cfg closedDuring rest
      else
        let s' := if duration > cfg.maxSpeechDuration
          then s.take (Nat.floor (cfg.maxSpeechDuration * (cfg.sampleRate : ℝ)))
          else s
        match collectSegments cfg closedDuring rest with
        | .error e => .error e
        | .ok ts => .ok (s' :: ts)

/-- segTasks is the effect of `collectSegments` in the normal case (no
concurrent close): the total function from drained segments to the
sample lists of the spawned recognition tasks. -/
noncomputable def segTasks (cfg : SessionConfig) :
    List (Option (List ℝ)) → List (List ℝ)
  | [] => []
  | none :: rest => segTasks cfg rest
  | some s :: rest =>
    if s.length = 0 then segTasks cfg rest
    else
      let duration : ℝ := (s.length : ℝ) / (cfg.sampleRate : ℝ)
      if duration < cfg.minSpeechDuration then segTasks cfg rest
      else
        (if duration > cfg.maxSpeechDuration
          then s.take (Nat.floor (cfg.maxSpeechDuration * (cfg.sampleRate : ℝ)))
          else s) :: segTasks cfg rest

/-- Outcome of one `ProcessAudioData` call: the returned error (if
any), the updated session and pool, the float frame submitted to the
VAD detector (`none` when the VAD path was never reached), and the
sample lists of the recognition tasks spawned for this frame. -/
structure ProcessOutcome where
  err : Option SessionErr
  session : SessionState
  pool : PoolState
  dispatched : Option (List ℝ)
  tasks : List (List ℝ)

/-- processSileroVAD translates `Manager.processSileroVAD`: submit the
frame to the detector (modelled by recording it in `dispatched`), fail
if the bounded deadline elapsed, otherwise drain the segment queue and
spawn one recognition task per surviving segment. -/
noncomputable def processSileroVAD (cfg : SessionConfig) (sess : SessionState)
    (pl : PoolState) (samples : List ℝ) (segs : List (Option (List ℝ)))
    (vadTimedOut closedDuring : Bool) : ProcessOutcome :=
  if vadTimedOut then ⟨some .vadTimeout, sess, pl, some samples, []⟩
  else
    match collectSegments cfg closedDuring segs with
    | .error e => ⟨some e, sess, pl, some samples, []⟩
    | .ok ts => ⟨none, sess, pl, some samples, ts⟩

/-- processValidated is the tail of `Manager.ProcessAudioData` after
the VAD instance is bound: reject an empty frame, reject an odd byte
length, convert little-endian int16 to floats, and dispatch to the
Silero handler. -/
noncomputable def processValidated (cfg : SessionConfig) (sess : SessionState)
    (pl : PoolState) (bytes : List (Fin 256)) (segs : List (Option (List ℝ)))
    (vadTimedOut closedDuring : Bool) : ProcessOutcome :=
  if bytes.isEmpty then ⟨some .emptyAudio, sess, pl, none, []⟩
  else if bytes.length % 2 ≠ 0 then
    ⟨some (.invalidLength bytes.length), sess, pl, none, []⟩
  else
    processSileroVAD cfg sess pl (bytesToSamples cfg.normalizeFactor bytes)
      segs vadTimedOut closedDuring

/-- ProcessAudioData translates `Manager.ProcessAudioData` for a
located session: reject when the closed flag is set; lazily acquire a
VAD instance from the pool when none is assigned (failing if the pool
is shutting down); then validate and dispatch. -/
noncomputable def ProcessAudioData (cfg : SessionConfig) (sess : SessionState)
    (pl : PoolState) (bytes : List (Fin 256)) (segs : List (Option (List ℝ)))
    (vadTimedOut closedDuring : Bool) (now : ℤ) : ProcessOutcome :=
  if sess.closed then ⟨some .sessionClosed, sess, pl, none, []⟩
  else
    match sess.vad with
    | some _ => processValidated cfg sess pl bytes segs vadTimedOut closedDuring
    | none =>
      match Pool.Get pl now with
      | (.error _, pl') => ⟨some .poolGetFailed, sess, pl', none, []⟩
      | (.ok h, pl') =>
          processValidated cfg { sess with vad := some h } pl' bytes segs
            vadTimedOut closedDuring

/-- Result of handling one inbound WebSocket frame in the
`HandleWebSocket` read loop: whether `ProcessAudioData` was invoked,
whether an error message was enqueued to the client, whether the loop
broke (closing the connection), and the updated session and pool. -/
structure WsFrameResult where
  processCalled : Bool
  errorEnqueued : Bool
  connectionClosed : Bool
  session : SessionState
  pool : PoolState

/-- handleFrame translates the body of the read loop in
`HandleWebSocket`: a frame above the configured maximum size breaks the
loop; a non-empty frame is handed to `ProcessAudioData`, and a
processing error is enqueued to the client as a structured error
message (dropped when the send queue is full); an empty frame is
silently skipped. -/
noncomputable def handleFrame (cfg : SessionConfig) (sess : SessionState)
    (pl : PoolState) (message : List (Fin 256)) (segs : List (Option (List ℝ)))
    (vadTimedOut closedDuring queueHasRoom : Bool) (now : ℤ) : WsFrameResult :=
  if 0 < cfg.maxMessageSize ∧ cfg.maxMessageSize < message.length then
    ⟨false, false, true, sess, pl⟩
  else if 0 < message.length then
    let r := ProcessAudioData cfg sess pl message segs vadTimedOut closedDuring now
    match r.err with
    | some _ => ⟨true, queueHasRoom, false, r.session, r.pool⟩
    | none => ⟨true, false, false, r.session, r.pool⟩
  else
    ⟨false, false, false, sess, pl⟩

/-! ## Concrete states used by witnesses and counterexamples -/

/-- Empty speaker database, as built when no database file exists. -/
noncomputable def emptyDB : SpeakerDatabase :=
  { speakers := fun _ => none, version := "1.0.0", updatedAt := 0 }

/-- Manager over the empty database, consistent with its on-disk file. -/
noncomputable def emptyMgr : Manager :=
  { database := emptyDB, index := [], disk := some emptyDB
    dbPath := "data/speaker.json", threshold := 1 }

/-- One enrolled record used by witnesses. -/
noncomputable def aliceRecord : SpeakerData :=
  { id := "u1", name := "Alice", embeddings := [[1]]
    createdAt := 0, updatedAt := 0, sampleCount := 1 }

/-- Database holding exactly the record of speaker u1. -/
noncomputable def aliceDB : SpeakerDatabase :=
  { speakers := fun k => if k = "u1" then some aliceRecord else none
    version := "1.0.0", updatedAt := 0 }

/-- Manager over the one-record database, index and disk consistent. -/
noncomputable def aliceMgr : Manager :=
  { database := aliceDB, index := [("u1", [[1]])], disk := some aliceDB
    dbPath := "data/speaker.json", threshold := 1 }

/-- Pool of size 1 with its single instance, freshly initialized. -/
def c1pool0 : PoolState := Pool.initPool 1 1 0

/-- c1pool0 after a first Get (hands out the pooled instance 0). -/
def c1pool1 : PoolState := (Pool.Get c1pool0 0).2

/-- c1pool1 after a second Get (pool exhausted: hands out a transient
instance, handle 1, with ID = -1). -/
def c1pool2 : PoolState := (Pool.Get c1pool1 0).2

/-- c1pool2 after Put of the transient instance. -/
def c1pool3 : PoolState := Pool.Put c1pool2 (some 1) 0

/-- Pool configured with pool_size 2 of which one instance was built
(Initialize succeeds as soon as one construction succeeds). -/
def c9pool0 : PoolState := Pool.initPool 2 1 0

/-- c9pool0 after a first Get (hands out the pooled instance 0). -/
def c9pool1 : PoolState := (Pool.Get c9pool0 0).2

/-- c9pool1 after a second Get (exhausted: transient handle 1). -/
def c9pool2 : PoolState := (Pool.Get c9pool1 0).2

/-- c9pool2 after Put of the transient (re-queued: channel has room). -/
def c9pool3 : PoolState := Pool.Put c9pool2 (some 1) 0

/-- c9pool3 after Put of instance 0: a quiescent point, both Gets are
matched by completed Puts. -/
def c9pool4 : PoolState := Pool.Put c9pool3 (some 0) 0

/-- Session configuration used by witnesses: 4 kHz, unit normalization,
minimum speech duration 1 s, maximum 2 s, 1024-byte frame cap. -/
noncomputable def wCfg : SessionConfig :=
  { sampleRate := 4, normalizeFactor := 1, minSpeechDuration := 1
    maxSpeechDuration := 2, maxMessageSize := 1024 }

/-- Open session with VAD instance 0 already assigned. -/
def wSess : SessionState := { closed := false, vad := some 0 }

/-! ## Theorems -/

/-- Fold of max over a list is bounded below by the start value. -/
theorem start_le_foldl_max (l : List ℝ) (x : ℝ) : x ≤ l.foldl max x := by
  induction l generalizing x with
  | nil => exact le_refl x
  | cons a t ih => exact le_trans (le_max_left x a) (ih (max x a))

/-- calculateSimilarity is the fold of max, started at 0, over the
cosine similarities of the stored vectors. -/
theorem calculateSimilarity_eq_foldl (query : List ℝ) (stored : List (List ℝ)) :
    calculateSimilarity query stored
      = (stored.map (cosineSimilarity query)).foldl max 0 := by
  have hfun : (fun (m : ℝ) (embedding : List ℝ) =>
      let similarity := cosineSimilarity query embedding
      if similarity > m then similarity else m)
      = fun (m : ℝ) embedding => max m (cosineSimilarity query embedding) := by
    funext m embedding
    dsimp only
    rcases le_or_lt (cosineSimilarity query embedding) m with h | h
    · rw [if_neg (not_lt.mpr h), max_eq_left h]
    · rw [if_pos h, max_eq_right h.le]
  cases stored with
  | nil => simp [calculateSimilarity]
  | cons s t =>
      rw [calculateSimilarity, if_neg (by simp), hfun, List.foldl_map]

/-- C5: the record score of `calculateSimilarity` is the maximum,
seeded with 0, of the cosine similarities of the query against the
stored vectors; it is never negative; an empty vector list scores 0;
and `cosineSimilarity` is 0 on length mismatch and on zero-norm
input. -/
theorem claim_C5 (query : List ℝ) (stored : List (List ℝ)) (a b : List ℝ) :
    calculateSimilarity query stored
      = (stored.map (cosineSimilarity query)).foldl max 0
    ∧ 0 ≤ calculateSimilarity query stored
    ∧ calculateSimilarity query [] = 0
    ∧ (a.length ≠ b.length → cosineSimilarity a b = 0)
    ∧ (a.foldl (fun acc x => acc + x * x) 0 = 0 → cosineSimilarity a b = 0)
    ∧ (b.foldl (fun acc x => acc + x * x) 0 = 0 → cosineSimilarity a b = 0) := by
  refine ⟨calculateSimilarity_eq_foldl query stored, ?_, rfl, ?_, ?_, ?_⟩
  · rw [calculateSimilarity_eq_foldl]
    exact start_le_foldl_max _ 0
  · intro h
    rw [cosineSimilarity, if_pos h]
  · intro h
    rw [cosineSimilarity]
    rcases eq_or_ne a.length b.length with hl | hl
    · rw [if_neg (by simp [hl])]
      dsimp only
      rw [if_pos (Or.inl h)]
    · rw [if_pos hl]
  · intro h
    rw [cosineSimilarity]
    rcases eq_or_ne a.length b.length with hl | hl
    · rw [if_neg (by simp [hl])]
      dsimp only
      rw [if_pos (Or.inr h)]
    · rw [if_pos hl]

/-- Witness for C5 at concrete inputs: a zero query vector against a
stored vector of different length, and a singleton stored list. -/
theorem claim_C5_witness :
    cosineSimilarity [(0 : ℝ)] [1, 1] = 0
    ∧ 0 ≤ calculateSimilarity [(1 : ℝ)] [[0]]
    ∧ cosineSimilarity [(0 : ℝ), 0] [1, 1] = 0 :=
  ⟨(claim_C5 [1] [[0]] [0] [1, 1]).2.2.2.1 (by simp),
   (claim_C5 [1] [[0]] [0] [1, 1]).2.1,
   (claim_C5 [1] [[0]] [0, 0] [1, 1]).2.2.2.2.1 (by norm_num)⟩

/-- Extraction failures are never the not-found error. -/
theorem extractEmbedding_ne_notFound (outcome : ExtractOutcome) (id : String) :
    extractEmbedding outcome ≠ .error (.notFound id) := by
  cases outcome with
  | notReady => simp [extractEmbedding]
  | computed e =>
      rw [extractEmbedding]
      split <;> simp

/-- C3: VerifySpeaker fails with the not-found error exactly when no
record with the given ID exists; the manager state is unchanged; and
when the record exists and extraction succeeds the result is verified
precisely when the maximal cosine against the record reaches the
threshold. -/
theorem claim_C3 (m : Manager) (speakerID : String) (outcome : ExtractOutcome)
    (d : SpeakerData) (e : List ℝ) :
    ((VerifySpeaker m speakerID outcome).1 = .error (.notFound speakerID)
        ↔ m.database.speakers speakerID = none)
    ∧ (VerifySpeaker m speakerID outcome).2 = m
    ∧ (m.database.speakers speakerID = some d →
        extractEmbedding outcome = .ok e →
        (VerifySpeaker m speakerID outcome).1
          = .ok { speakerID := speakerID, speakerName := d.name
                  verified := decide (calculateSimilarity e d.embeddings ≥ m.threshold)
                  confidence := calculateSimilarity e d.embeddings
                  threshold := m.threshold })
    ∧ (decide (calculateSimilarity e d.embeddings ≥ m.threshold) = true
        ↔ calculateSimilarity e d.embeddings ≥ m.threshold) := by
  refine ⟨?_, ?_, ?_, by simp⟩
  · cases hd : m.database.speakers speakerID with
    | none => simp [VerifySpeaker, hd]
    | some d' =>
        cases hx : extractEmbedding outcome with
        | error e0 =>
            have he0 : e0 ≠ SpeakerErr.notFound speakerID := by
              intro h
              rw [h] at hx
              exact extractEmbedding_ne_notFound outcome speakerID hx
            simp [VerifySpeaker, hd, hx, he0]
        | ok emb => simp [VerifySpeaker, hd, hx]
  · rw [VerifySpeaker]
    rcases hd : m.database.speakers speakerID with _ | d'
    · rfl
    · rcases hx : extractEmbedding outcome with e0 | emb <;> rfl
  · intro hd hx
    simp [VerifySpeaker, hd, hx]

/-- Witness for C3 on a one-record database with a successful
extraction. -/
theorem claim_C3_witness :
    (VerifySpeaker aliceMgr "u1" (.computed [1])).1
      = .ok { speakerID := "u1", speakerName := aliceRecord.name
              verified := decide
                (calculateSimilarity [1] aliceRecord.embeddings ≥ aliceMgr.threshold)
              confidence := calculateSimilarity [1] aliceRecord.embeddings
              threshold := aliceMgr.threshold }
    ∧ (VerifySpeaker aliceMgr "u1" (.computed [1])).2 = aliceMgr :=
  ⟨(claim_C3 aliceMgr "u1" (.computed [1]) aliceRecord [1]).2.2.1
      (by simp [aliceMgr, aliceDB]) rfl,
   (claim_C3 aliceMgr "u1" (.computed [1]) aliceRecord [1]).2.1⟩

/-- C4: when extraction succeeds and the in-memory index reports no
match, IdentifySpeaker returns the not-identified result (identified
false, empty IDs, confidence 0) without error; and the index reports
no match on an empty index, so an empty database never makes
identification fail. -/
theorem claim_C4 (m : Manager) (outcome : ExtractOutcome) (e emb : List ℝ) (t : ℝ) :
    (extractEmbedding outcome = .ok e →
      searchIndex m.index e m.threshold = "" →
      IdentifySpeaker m outcome
        = .ok { identified := false, speakerID := "", speakerName := ""
                confidence := 0, threshold := m.threshold })
    ∧ searchIndex [] emb t = "" := by
  constructor
  · intro hx hs
    simp only [IdentifySpeaker, hx, hs]
    simp
  · rfl

/-- Witness for C4: identification over the empty database. -/
theorem claim_C4_witness :
    IdentifySpeaker emptyMgr (.computed [1])
      = .ok { identified := false, speakerID := "", speakerName := ""
              confidence := 0, threshold := emptyMgr.threshold }
    ∧ searchIndex [] [(1 : ℝ)] 1 = "" :=
  ⟨(claim_C4 emptyMgr (.computed [1]) [1] [1] 1).1 rfl rfl,
   (claim_C4 emptyMgr (.computed [1]) [1] [1] 1).2⟩

/-- C8: registering twice under the same ID on a database without that
ID yields one record with both embeddings appended in order, sample
count 2, and the second name (last-writer-wins). -/
theorem RegisterSpeaker_lookup_none (m : Manager) (speakerID name : String)
    (emb : List ℝ) (now : ℤ) (wk : Bool)
    (h0 : m.database.speakers speakerID = none) (he : emb ≠ []) :
    (RegisterSpeaker m speakerID name (.computed emb) now wk).2.1.database.speakers
      speakerID
      = some { id := speakerID, name := name, embeddings := [emb]
               createdAt := now, updatedAt := now, sampleCount := 1 } := by
  cases wk <;> simp [RegisterSpeaker, extractEmbedding, he, h0, saveDatabase]

theorem RegisterSpeaker_lookup_some (m : Manager) (speakerID name : String)
    (emb : List ℝ) (now : ℤ) (wk : Bool) (d : SpeakerData)
    (h0 : m.database.speakers speakerID = some d) (he : emb ≠ []) :
    (RegisterSpeaker m speakerID name (.computed emb) now wk).2.1.database.speakers
      speakerID
      = some { id := d.id, name := name, embeddings := d.embeddings ++ [emb]
               createdAt := d.createdAt, updatedAt := now
               sampleCount := d.sampleCount + 1 } := by
  cases wk <;> simp [RegisterSpeaker, extractEmbedding, he, h0, saveDatabase]

/-- C8: registering twice under the same ID on a database without that
ID yields one record with both embeddings appended in order, sample
count 2, and the second name (last-writer-wins). -/
theorem claim_C8 (m : Manager) (speakerID n1 n2 : String) (a b : List ℝ)
    (t1 t2 : ℤ) (h0 : m.database.speakers speakerID = none)
    (ha : a ≠ []) (hb : b ≠ []) :
    (RegisterSpeaker (RegisterSpeaker m speakerID n1 (.computed a) t1 true).2.1
        speakerID n2 (.computed b) t2 true).2.1.database.speakers speakerID
      = some { id := speakerID, name := n2, embeddings := [a, b]
               createdAt := t1, updatedAt := t2, sampleCount := 2 }
    ∧ ([a, b] : List (List ℝ)).length = 2 := by
  have h1 := RegisterSpeaker_lookup_none m speakerID n1 a t1 true h0 ha
  have h2 := RegisterSpeaker_lookup_some
    (RegisterSpeaker m speakerID n1 (.computed a) t1 true).2.1 speakerID n2 b t2 true
    _ h1 hb
  refine ⟨?_, rfl⟩
  rw [h2]
  norm_num

/-- Witness for C8: two registrations of u1 on the empty database. -/
theorem claim_C8_witness :
    (RegisterSpeaker (RegisterSpeaker emptyMgr "u1" "Alice" (.computed [1]) 0 true).2.1
        "u1" "Alicia" (.computed [2]) 1 true).2.1.database.speakers "u1"
      = some { id := "u1", name := "Alicia", embeddings := [[1], [2]]
               createdAt := 0, updatedAt := 1, sampleCount := 2 }
    ∧ ([[(1 : ℝ)], [2]] : List (List ℝ)).length = 2 :=
  claim_C8 emptyMgr "u1" "Alice" "Alicia" [1] [2] 0 1 rfl
    (by simp) (by simp)

/-- Successful extraction means the extractor computed exactly the
returned non-empty vector. -/
theorem extractEmbedding_ok_iff (outcome : ExtractOutcome) (e : List ℝ) :
    extractEmbedding outcome = .ok e ↔ outcome = .computed e ∧ e ≠ [] := by
  cases outcome with
  | notReady => simp [extractEmbedding]
  | computed l =>
      by_cases hl : l = []
      · subst hl
        simp [extractEmbedding]
      · simp [extractEmbedding, hl]
        intro h
        rw [← h]
        exact hl

/-- C2 counterexample: a concrete successful registration performs a
single direct write of the database to its path — its file-system
trace contains no rename, refuting the write-temp-then-rename
protocol; and when the write fails, the registration leaves the new
record in memory while the on-disk file still lacks it, refuting the
failure-consistency part. -/
theorem claim_C2_counterexample :
    ((RegisterSpeaker emptyMgr "u1" "Alice" (.computed [1]) 0 true).2.2.all
        (fun op => !op.isRename)) = true
    ∧ (RegisterSpeaker emptyMgr "u1" "Alice" (.computed [1]) 0 true).2.2
        = [.write "data/speaker.json"
            (RegisterSpeaker emptyMgr "u1" "Alice" (.computed [1]) 0 true).2.1.database]
    ∧ (RegisterSpeaker emptyMgr "u1" "Alice" (.computed [1]) 0 false).1
        = .error .persistFailed
    ∧ ((RegisterSpeaker emptyMgr "u1" "Alice" (.computed [1]) 0 false).2.1.database.speakers
        "u1").isSome = true
    ∧ (RegisterSpeaker emptyMgr "u1" "Alice" (.computed [1]) 0 false).2.1.disk
        = some emptyDB
    ∧ emptyDB.speakers "u1" = none :=
  ⟨rfl, rfl, rfl, rfl, rfl, rfl⟩

/-- C2 as amended: every mutating operation persists by one direct
write of the whole database to the database path (no temporary file,
no rename); on success memory and disk agree; when persisting fails
the mutation stays in the in-memory database while the on-disk file is
unchanged, so they diverge. -/
theorem claim_C2 (m : Manager) (speakerID name delID : String)
    (outcome : ExtractOutcome) (e : List ℝ) (now : ℤ) (d : SpeakerData) :
    (extractEmbedding outcome = .ok e →
      (RegisterSpeaker m speakerID name outcome now true).1 = .ok ()
      ∧ (RegisterSpeaker m speakerID name outcome now true).2.2
          = [.write m.dbPath
              (RegisterSpeaker m speakerID name outcome now true).2.1.database]
      ∧ (RegisterSpeaker m speakerID name outcome now true).2.1.disk
          = some (RegisterSpeaker m speakerID name outcome now true).2.1.database
      ∧ (RegisterSpeaker m speakerID name outcome now false).1
          = .error .persistFailed
      ∧ (RegisterSpeaker m speakerID name outcome now false).2.2 = []
      ∧ (RegisterSpeaker m speakerID name outcome now false).2.1.disk = m.disk
      ∧ ((RegisterSpeaker m speakerID name outcome now false).2.1.database.speakers
          speakerID).isSome = true)
    ∧ (m.database.speakers delID = some d →
      (DeleteSpeaker m delID now true).1 = .ok ()
      ∧ (DeleteSpeaker m delID now true).2.2
          = [.write m.dbPath (DeleteSpeaker m delID now true).2.1.database]
      ∧ (DeleteSpeaker m delID now true).2.1.disk
          = some (DeleteSpeaker m delID now true).2.1.database
      ∧ (DeleteSpeaker m delID now false).1 = .error .persistFailed
      ∧ (DeleteSpeaker m delID now false).2.1.disk = m.disk
      ∧ (DeleteSpeaker m delID now false).2.1.database.speakers delID = none) := by
  constructor
  · intro hx
    obtain ⟨ho, he⟩ := (extractEmbedding_ok_iff outcome e).mp hx
    subst ho
    refine ⟨?_, ?_, ?_, ?_, ?_, ?_, ?_⟩
    · simp [RegisterSpeaker, extractEmbedding, he, saveDatabase]
    · simp [RegisterSpeaker, extractEmbedding, he, saveDatabase]
    · simp [RegisterSpeaker, extractEmbedding, he, saveDatabase]
    · simp [RegisterSpeaker, extractEmbedding, he, saveDatabase]
    · simp [RegisterSpeaker, extractEmbedding, he, saveDatabase]
    · simp [RegisterSpeaker, extractEmbedding, he, saveDatabase]
    · cases h0 : m.database.speakers speakerID with
      | none => rw [RegisterSpeaker_lookup_none m speakerID name e now false h0 he]; rfl
      | some d0 =>
          rw [RegisterSpeaker_lookup_some m speakerID name e now false d0 h0 he]; rfl
  · intro hd
    refine ⟨?_, ?_, ?_, ?_, ?_, ?_⟩ <;> simp [DeleteSpeaker, hd, saveDatabase]

/-- Witness for C2 at concrete inputs: a registration on the empty
database and a deletion on the one-record database, both with a
failing write. -/
theorem claim_C2_witness :
    (RegisterSpeaker emptyMgr "u1" "Alice" (.computed [1]) 0 false).1
      = .error .persistFailed
    ∧ ((RegisterSpeaker emptyMgr "u1" "Alice" (.computed [1]) 0 false).2.1.database.speakers
        "u1").isSome = true
    ∧ (DeleteSpeaker aliceMgr "u1" 0 false).2.1.database.speakers "u1" = none :=
  ⟨(((claim_C2 emptyMgr "u1" "Alice" "x" (.computed [1]) [1] 0 aliceRecord).1
      rfl).2.2.2.1),
   (((claim_C2 emptyMgr "u1" "Alice" "x" (.computed [1]) [1] 0 aliceRecord).1
      rfl).2.2.2.2.2.2),
   (((claim_C2 aliceMgr "u" "n" "u1" (.computed [1]) [1] 0 aliceRecord).2
      (by simp [aliceMgr, aliceDB])).2.2.2.2.2)⟩

/-- C1 counterexample: on the fully initialized one-instance pool,
exhaust the pool, obtain a transient instance (returned by Get on the
timeout path, ID -1, in-use flag 1), and Put it: the transient is
re-queued into the available-queue and not destroyed, because the
queue has room — refuting that Put always destroys a transient. -/
theorem claim_C1_counterexample :
    (Pool.Get c1pool1 0).1 = .ok 1
    ∧ c1pool2.goID 1 = -1
    ∧ c1pool2.inUse 1 = true
    ∧ c1pool3.available = [1]
    ∧ c1pool3.live 1 = true :=
  ⟨rfl, rfl, rfl, rfl, rfl⟩

/-- C1 as amended: Put of an in-use transient instance re-queues it
into the available-queue whenever the queue has room, leaving it
alive; it destroys the instance only when the queue is full. -/
theorem claim_C1 (p : PoolState) (h : ℕ) (now : ℤ)
    (hin : p.inUse h = true) (hid : p.goID h = -1) :
    (p.available.length < p.poolSize →
      (Pool.Put p (some h) now).available = p.available ++ [h]
      ∧ (Pool.Put p (some h) now).live = p.live)
    ∧ (¬ p.available.length < p.poolSize →
      (Pool.Put p (some h) now).available = p.available
      ∧ (Pool.Put p (some h) now).live h = false) := by
  constructor
  · intro hlt
    constructor <;> simp [Pool.Put, hin, hlt]
  · intro hge
    constructor <;> simp [Pool.Put, hin, hge]

/-- Witness for C1: the transient of the counterexample scenario is
re-queued (queue has room); a second transient, Put when the queue is
already full, is destroyed. -/
theorem claim_C1_witness :
    ((Pool.Put c1pool2 (some 1) 0).available = c1pool2.available ++ [1]
      ∧ (Pool.Put c1pool2 (some 1) 0).live = c1pool2.live)
    ∧ ((Pool.Put (Pool.Put (Pool.Get c1pool2 0).2 (some 1) 0) (some 2) 0).available
        = (Pool.Put (Pool.Get c1pool2 0).2 (some 1) 0).available
      ∧ (Pool.Put (Pool.Put (Pool.Get c1pool2 0).2 (some 1) 0) (some 2) 0).live 2
        = false) :=
  ⟨(claim_C1 c1pool2 1 0 rfl rfl).1 (by decide),
   (claim_C1 (Pool.Put (Pool.Get c1pool2 0).2 (some 1) 0) 2 0 (by decide)
      (by decide)).2 (by decide)⟩

/-- Without a concurrent close, the segment-draining loop never fails
and yields exactly the segTasks list. -/
theorem collectSegments_false (cfg : SessionConfig) (segs : List (Option (List ℝ))) :
    collectSegments cfg false segs = .ok (segTasks cfg segs) := by
  induction segs with
  | nil => rfl
  | cons head rest ih =>
      cases head with
      | none => simpa [collectSegments, segTasks] using ih
      | some s =>
          simp only [collectSegments, segTasks]
          by_cases h0 : s.length = 0
          · simp [h0, ih]
          · by_cases hd : (s.length : ℝ) / (cfg.sampleRate : ℝ) < cfg.minSpeechDuration
            · simp [h0, hd, ih]
            · simp [h0, hd, ih]

/-- The only error the segment-draining loop can produce is the
mid-processing close. -/
theorem collectSegments_error_eq (cfg : SessionConfig) (cd : Bool) :
    ∀ segs e, collectSegments cfg cd segs = .error e →
      e = .closedDuringProcessing := by
  intro segs
  induction segs with
  | nil => intro e h; simp [collectSegments] at h
  | cons head rest ih =>
      intro e h
      cases head with
      | none => exact ih e (by simpa [collectSegments] using h)
      | some s =>
          simp only [collectSegments] at h
          by_cases h0 : s.length = 0
          · rw [if_pos h0] at h
            exact ih e h
          · rw [if_neg h0] at h
            cases cd with
            | true =>
                simp at h
                exact h.symm
            | false =>
                rw [if_neg (by simp)] at h
                by_cases hd :
                    (s.length : ℝ) / (cfg.sampleRate : ℝ) < cfg.minSpeechDuration
                · rw [if_pos hd] at h
                  exact ih e h
                · rw [if_neg hd] at h
                  cases hrec : collectSegments cfg false rest with
                  | error e' =>
                      rw [hrec] at h
                      simp at h
                      rw [← h]
                      exact ih e' hrec
                  | ok ts =>
                      rw [hrec] at h
                      simp at h

/-- segTasks distributes over concatenation of drained segments. -/
theorem segTasks_append (cfg : SessionConfig) (l1 l2 : List (Option (List ℝ))) :
    segTasks cfg (l1 ++ l2) = segTasks cfg l1 ++ segTasks cfg l2 := by
  induction l1 with
  | nil => rfl
  | cons head rest ih =>
      cases head with
      | none => simpa [segTasks] using ih
      | some s =>
          simp only [List.cons_append, segTasks]
          by_cases h0 : s.length = 0
          · simp [h0, ih]
          · by_cases hd : (s.length : ℝ) / (cfg.sampleRate : ℝ) < cfg.minSpeechDuration
            · simp [h0, hd, ih]
            · simp [h0, hd, ih]

/-- C6: each drained segment contributes its tasks independently; a
segment whose duration is below min_speech_duration is discarded and
spawns no recognition task; a segment whose duration exceeds
max_speech_duration spawns exactly one task whose samples are
truncated to int(max_speech_duration * sampleRate) samples — equal to
max_speech_duration * sampleRate when that product is integral. -/
theorem claim_C6 (cfg : SessionConfig) (s : List ℝ)
    (pre post : List (Option (List ℝ)))
    (hsr : 0 < cfg.sampleRate) (hmin : 0 ≤ cfg.minSpeechDuration)
    (hmm : cfg.minSpeechDuration ≤ cfg.maxSpeechDuration) :
    segTasks cfg (pre ++ some s :: post)
      = segTasks cfg pre ++ segTasks cfg [some s] ++ segTasks cfg post
    ∧ ((s.length : ℝ) / (cfg.sampleRate : ℝ) < cfg.minSpeechDuration →
        segTasks cfg [some s] = [])
    ∧ (cfg.maxSpeechDuration < (s.length : ℝ) / (cfg.sampleRate : ℝ) →
        segTasks cfg [some s]
          = [s.take (Nat.floor (cfg.maxSpeechDuration * (cfg.sampleRate : ℝ)))]
        ∧ (s.take (Nat.floor (cfg.maxSpeechDuration * (cfg.sampleRate : ℝ)))).length
            = Nat.floor (cfg.maxSpeechDuration * (cfg.sampleRate : ℝ))
        ∧ (((Nat.floor (cfg.maxSpeechDuration * (cfg.sampleRate : ℝ))) : ℝ)
              = cfg.maxSpeechDuration * (cfg.sampleRate : ℝ) →
            ((s.take (Nat.floor (cfg.maxSpeechDuration * (cfg.sampleRate : ℝ)))).length : ℝ)
              = cfg.maxSpeechDuration * (cfg.sampleRate : ℝ)))
    ∧ collectSegments cfg false (pre ++ some s :: post)
        = .ok (segTasks cfg (pre ++ some s :: post)) := by
  have hsr' : (0 : ℝ) < (cfg.sampleRate : ℝ) := by exact_mod_cast hsr
  refine ⟨?_, ?_, ?_, collectSegments_false cfg _⟩
  · have : pre ++ some s :: post = pre ++ [some s] ++ post := by simp
    rw [this, segTasks_append, segTasks_append]
  · intro hshort
    simp only [segTasks]
    by_cases h0 : s.length = 0
    · simp [h0]
    · simp [h0, hshort]
  · intro hlong
    have hmax0 : 0 ≤ cfg.maxSpeechDuration := le_trans hmin hmm
    have hprod0 : 0 ≤ cfg.maxSpeechDuration * (cfg.sampleRate : ℝ) :=
      mul_nonneg hmax0 hsr'.le
    have hlen : cfg.maxSpeechDuration * (cfg.sampleRate : ℝ) < (s.length : ℝ) :=
      (lt_div_iff₀ hsr').mp hlong
    have h0 : s.length ≠ 0 := by
      intro h
      rw [h] at hlen
      exact absurd (lt_of_le_of_lt hprod0 (by exact_mod_cast hlen)) (lt_irrefl 0)
    have hfloor_lt : Nat.floor (cfg.maxSpeechDuration * (cfg.sampleRate : ℝ)) < s.length := by
      have h1 : ((Nat.floor (cfg.maxSpeechDuration * (cfg.sampleRate : ℝ))) : ℝ)
          ≤ cfg.maxSpeechDuration * (cfg.sampleRate : ℝ) := Nat.floor_le hprod0
      exact_mod_cast lt_of_le_of_lt h1 hlen
    have hnshort : ¬ (s.length : ℝ) / (cfg.sampleRate : ℝ) < cfg.minSpeechDuration :=
      not_lt.mpr (le_of_lt (lt_of_le_of_lt hmm hlong))
    have htake : (s.take (Nat.floor (cfg.maxSpeechDuration * (cfg.sampleRate : ℝ)))).length
        = Nat.floor (cfg.maxSpeechDuration * (cfg.sampleRate : ℝ)) := by
      rw [List.length_take]
      exact min_eq_left hfloor_lt.le
    refine ⟨?_, htake, ?_⟩
    · simp only [segTasks]
      rw [if_neg h0, if_neg hnshort, if_pos hlong]
    · intro hint
      rw [htake, hint]

/-- Witness for C6 at 4 kHz with min 1 s and max 2 s: a 2-sample
segment (0.5 s) is discarded; a 9-sample segment (2.25 s) yields one
task truncated to 8 samples, exactly max_speech_duration times the
sample rate. -/
theorem claim_C6_witness :
    segTasks wCfg [some (List.replicate 2 (0 : ℝ))] = []
    ∧ segTasks wCfg [some (List.replicate 9 (0 : ℝ))]
        = [(List.replicate 9 (0 : ℝ)).take
            (Nat.floor (wCfg.maxSpeechDuration * (wCfg.sampleRate : ℝ)))]
    ∧ (((List.replicate 9 (0 : ℝ)).take
          (Nat.floor (wCfg.maxSpeechDuration * (wCfg.sampleRate : ℝ)))).length : ℝ)
        = wCfg.maxSpeechDuration * (wCfg.sampleRate : ℝ) :=
  ⟨(claim_C6 wCfg (List.replicate 2 0) [] [] (by norm_num [wCfg])
      (by norm_num [wCfg]) (by norm_num [wCfg])).2.1 (by norm_num [wCfg]),
   ((claim_C6 wCfg (List.replicate 9 0) [] [] (by norm_num [wCfg])
      (by norm_num [wCfg]) (by norm_num [wCfg])).2.2.1 (by norm_num [wCfg])).1,
   ((claim_C6 wCfg (List.replicate 9 0) [] [] (by norm_num [wCfg])
      (by norm_num [wCfg]) (by norm_num [wCfg])).2.2.1 (by norm_num [wCfg])).2.2
     (by norm_num [wCfg])⟩

/-- A non-empty frame can never produce the empty-audio error from the
validated processing path. -/
theorem processValidated_ne_emptyAudio (cfg : SessionConfig) (sess : SessionState)
    (pl : PoolState) (bytes : List (Fin 256)) (segs : List (Option (List ℝ)))
    (vadTimedOut closedDuring : Bool) (hb : bytes ≠ []) :
    (processValidated cfg sess pl bytes segs vadTimedOut closedDuring).err
      ≠ some .emptyAudio := by
  have hbe : ¬ (bytes.isEmpty = true) := by simp [hb]
  rw [processValidated, if_neg hbe]
  by_cases hodd : bytes.length % 2 ≠ 0
  · rw [if_pos hodd]
    simp
  · rw [if_neg hodd, processSileroVAD]
    by_cases hv : vadTimedOut = true
    · rw [if_pos hv]
      simp
    · rw [if_neg hv]
      cases hrec : collectSegments cfg closedDuring segs with
      | error e =>
          have := collectSegments_error_eq cfg closedDuring segs e hrec
          subst this
          simp
      | ok ts => simp

/-- C10: the streaming read loop silently skips a zero-length inbound
frame — ProcessAudioData is not invoked, nothing is enqueued, the
session stays open; and ProcessAudioData never returns the empty-audio
error on the non-empty frames the loop does forward, so that error
branch is unreachable from the streaming endpoint. -/
theorem claim_C10 (cfg : SessionConfig) (sess : SessionState) (pl : PoolState)
    (segs segs2 : List (Option (List ℝ)))
    (vadTimedOut closedDuring queueHasRoom : Bool) (now : ℤ)
    (bytes : List (Fin 256)) :
    handleFrame cfg sess pl [] segs vadTimedOut closedDuring queueHasRoom now
      = { processCalled := false, errorEnqueued := false, connectionClosed := false
          session := sess, pool := pl }
    ∧ (bytes ≠ [] →
        (ProcessAudioData cfg sess pl bytes segs2 vadTimedOut closedDuring now).err
          ≠ some .emptyAudio) := by
  constructor
  · rw [handleFrame, if_neg (by simp), if_neg (by simp)]
  · intro hb
    rw [ProcessAudioData]
    by_cases hc : sess.closed = true
    · rw [if_pos hc]
      simp
    · rw [if_neg hc]
      cases sess.vad with
      | some h => exact processValidated_ne_emptyAudio cfg _ _ _ _ _ _ hb
      | none =>
          cases hget : Pool.Get pl now with
          | mk r pl' =>
              cases r with
              | error e => simp
              | ok h => exact processValidated_ne_emptyAudio cfg _ _ _ _ _ _ hb

/-- Witness for C10: a one-byte frame through an open session. -/
theorem claim_C10_witness :
    (ProcessAudioData wCfg wSess c1pool0 [0] [] false false 0).err
      ≠ some .emptyAudio :=
  (claim_C10 wCfg wSess c1pool0 [] [] false false true 0 [0]).2 (by simp)

/-- C7: a non-empty odd-length frame makes ProcessAudioData fail with
the invalid-length error before anything reaches the VAD — no frame is
dispatched, no task is spawned, session and pool are untouched and the
session remains open — and a subsequent valid frame on the same
session is processed normally. -/
theorem claim_C7 (cfg : SessionConfig) (sess : SessionState) (pl : PoolState)
    (bytes bytes2 : List (Fin 256)) (segs segs2 : List (Option (List ℝ)))
    (vadTimedOut closedDuring : Bool) (now now2 : ℤ) (h : ℕ)
    (hopen : sess.closed = false) (hvad : sess.vad = some h)
    (hne : bytes ≠ []) (hodd : bytes.length % 2 = 1)
    (hne2 : bytes2 ≠ []) (heven2 : bytes2.length % 2 = 0) :
    ProcessAudioData cfg sess pl bytes segs vadTimedOut closedDuring now
      = { err := some (.invalidLength bytes.length), session := sess, pool := pl
          dispatched := none, tasks := [] }
    ∧ (ProcessAudioData cfg sess pl bytes segs vadTimedOut closedDuring now).session.closed
        = false
    ∧ ProcessAudioData cfg sess pl bytes2 segs2 false false now2
      = { err := none, session := sess, pool := pl
          dispatched := some (bytesToSamples cfg.normalizeFactor bytes2)
          tasks := segTasks cfg segs2 } := by
  have h1 : ProcessAudioData cfg sess pl bytes segs vadTimedOut closedDuring now
      = { err := some (.invalidLength bytes.length), session := sess, pool := pl
          dispatched := none, tasks := [] } := by
    rw [ProcessAudioData, if_neg (by simp [hopen]), hvad, processValidated,
      if_neg (by simp [hne]), if_pos (by rw [hodd]; norm_num)]
  refine ⟨h1, by rw [h1, hopen], ?_⟩
  rw [ProcessAudioData, if_neg (by simp [hopen]), hvad, processValidated,
    if_neg (by simp [hne2]), if_neg (by rw [heven2]; norm_num), processSileroVAD,
    if_neg (by simp), collectSegments_false]

/-- Witness for C7: a 3-byte frame is rejected with the invalid-length
error and a 2-byte frame afterwards is processed. -/
theorem claim_C7_witness :
    ProcessAudioData wCfg wSess c1pool0 [0, 0, 0] [] false false 0
      = { err := some (.invalidLength 3), session := wSess, pool := c1pool0
          dispatched := none, tasks := [] }
    ∧ ProcessAudioData wCfg wSess c1pool0 [0, 0] [] false false 0
      = { err := none, session := wSess, pool := c1pool0
          dispatched := some (bytesToSamples wCfg.normalizeFactor [0, 0])
          tasks := segTasks wCfg [] } :=
  ⟨(claim_C7 wCfg wSess c1pool0 [0, 0, 0] [0, 0] [] [] false false 0 0 0 rfl rfl
      (by simp) rfl (by simp) rfl).1,
   (claim_C7 wCfg wSess c1pool0 [0, 0, 0] [0, 0] [] [] false false 0 0 0 rfl rfl
      (by simp) rfl (by simp) rfl).2.2⟩

/-- Updating a decidable predicate at one point where it flips from
false to true adds one to the filtered count. -/
theorem card_filter_update (n h : ℕ) (pr qr : ℕ → Prop)
    [DecidablePred pr] [DecidablePred qr]
    (hagree : ∀ k, k ≠ h → (pr k ↔ qr k)) (hh : h < n) (hph : pr h) (hqh : ¬ qr h) :
    ((Finset.range n).filter pr).card = ((Finset.range n).filter qr).card + 1 := by
  have hset : (Finset.range n).filter pr = insert h ((Finset.range n).filter qr) := by
    ext k
    simp only [Finset.mem_filter, Finset.mem_insert, Finset.mem_range]
    by_cases hk : k = h
    · subst hk
      simp [hh, hph, hqh]
    · simp [hk, hagree k hk]
  rw [hset, Finset.card_insert_of_not_mem (by simp [hqh])]

/-- Extending the range by a point where the flag is false leaves the
count unchanged. -/
theorem card_filter_range_succ_false (f : ℕ → Bool) (n : ℕ) (hf : f n = false) :
    ((Finset.range (n + 1)).filter (fun k => f k = true)).card
      = ((Finset.range n).filter (fun k => f k = true)).card := by
  rw [Finset.range_succ, Finset.filter_insert, if_neg (by simp [hf])]

/-- Setting a false flag to true adds one to the count. -/
theorem count_set_true (f : ℕ → Bool) (n h : ℕ) (hlt : h < n) (hf : f h = false) :
    ((Finset.range n).filter (fun k => (if k = h then true else f k) = true)).card
      = ((Finset.range n).filter (fun k => f k = true)).card + 1 :=
  card_filter_update n h _ _ (fun k hk => by simp [hk]) hlt (by simp) (by simp [hf])

/-- Setting a true flag to false removes one from the count. -/
theorem count_set_false (f : ℕ → Bool) (n h : ℕ) (hlt : h < n) (hf : f h = true) :
    ((Finset.range n).filter (fun k => f k = true)).card
      = ((Finset.range n).filter (fun k => (if k = h then false else f k) = true)).card
        + 1 :=
  card_filter_update n h _ _ (fun k hk => by simp [hk]) hlt (by simp [hf]) (by simp)

/-- A fresh handle set to true adds one to the count over the extended
range. -/
theorem count_extend (f : ℕ → Bool) (n : ℕ) (hf : f n = false) :
    ((Finset.range (n + 1)).filter (fun k => (if k = n then true else f k) = true)).card
      = ((Finset.range n).filter (fun k => f k = true)).card + 1 := by
  rw [card_filter_update (n + 1) n _ (fun k => f k = true) (fun k hk => by simp [hk])
    (Nat.lt_succ_self _) (by simp) (by simp [hf]),
    card_filter_range_succ_false f n hf]

/-- Inductive invariant of the pool state machine, closed under Get
and Put and true of every initialized pool. -/
structure PoolInv (p : PoolState) : Prop where
  active_eq : p.totalActive = (Pool.inUseCount p : ℤ)
  avail_le : p.available.length ≤ p.poolSize
  inst_le : p.instances.length ≤ p.poolSize
  avail_nodup : p.available.Nodup
  avail_flags : ∀ h ∈ p.available, p.inUse h = false
  avail_lt : ∀ h ∈ p.available, h < p.nextHandle
  avail_pooled : ∀ h ∈ p.available, p.goID h ≠ -1 → h ∈ p.instances
  fresh : ∀ h, p.nextHandle ≤ h → p.inUse h = false
  pooled : ∀ h, p.inUse h = true → p.goID h ≠ -1 → h ∈ p.instances
  conserve : p.instances.length ≤ p.available.length + Pool.inUseCount p

/-- The invariant holds right after initialization. -/
theorem poolInv_init (poolSize created : ℕ) (now : ℤ) (h2 : created ≤ poolSize) :
    PoolInv (Pool.initPool poolSize created now) := by
  refine ⟨?_, ?_, ?_, ?_, ?_, ?_, ?_, ?_, ?_, ?_⟩
  · simp [Pool.inUseCount, Pool.initPool]
  · simpa [Pool.initPool] using h2
  · simpa [Pool.initPool] using h2
  · show (List.range created).Nodup
    exact List.nodup_range created
  · intro h _
    rfl
  · intro h hmem
    exact List.mem_range.mp hmem
  · intro h hmem _
    exact hmem
  · intro h _
    rfl
  · intro h hfalse
    simp [Pool.initPool] at hfalse
  · simp [Pool.initPool, Pool.inUseCount]

/-- The invariant is preserved by Get. -/
theorem poolInv_get (p : PoolState) (now : ℤ) (hp : PoolInv p) :
    PoolInv (Pool.Get p now).2 := by
  rw [Pool.Get]
  cases hav : p.available with
  | nil =>
      rw [Pool.getLoop.eq_def]
      dsimp only
      rw [hav]
      dsimp only
      by_cases hs : p.shutdown = true
      · rw [if_pos hs]
        exact hp
      · rw [if_neg hs, Pool.createNewInstance]
        dsimp only
        have hfr : p.inUse p.nextHandle = false := hp.fresh p.nextHandle le_rfl
        have ha := hp.active_eq
        rw [Pool.inUseCount] at ha
        have hc := hp.conserve
        rw [Pool.inUseCount, hav] at hc
        refine ⟨?_, ?_, hp.inst_le, ?_, ?_, ?_, ?_, ?_, ?_, ?_⟩
        · show p.totalActive + 1 = _
          rw [Pool.inUseCount]
          dsimp only
          rw [count_extend p.inUse p.nextHandle hfr, ha]
          push_cast
          ring
        · show p.available.length ≤ p.poolSize
          exact hp.avail_le
        · show p.available.Nodup
          exact hp.avail_nodup
        · intro k hk
          dsimp only at hk
          rw [hav] at hk
          simp at hk
        · intro k hk
          dsimp only at hk
          rw [hav] at hk
          simp at hk
        · intro k hk
          dsimp only at hk
          rw [hav] at hk
          simp at hk
        · intro k hge
          dsimp only at hge
          show (if k = p.nextHandle then true else p.inUse k) = false
          have hne : k ≠ p.nextHandle := by omega
          rw [if_neg hne]
          exact hp.fresh k (by omega)
        · intro k hin hg
          dsimp only at hin hg
          by_cases hne : k = p.nextHandle
          · subst hne
            simp at hg
          · rw [if_neg hne] at hin hg
            exact hp.pooled k hin hg
        · show p.instances.length ≤ p.available.length + _
          rw [Pool.inUseCount]
          dsimp only
          rw [count_extend p.inUse p.nextHandle hfr, hav]
          simp only [List.length_nil, Nat.zero_add] at hc ⊢
          omega
  | cons h rest =>
      rw [Pool.getLoop.eq_def]
      dsimp only
      rw [hav]
      dsimp only
      have hmem : h ∈ p.available := by
        rw [hav]
        exact List.mem_cons_self h rest
      have hflag : p.inUse h = false := hp.avail_flags h hmem
      rw [if_pos hflag]
      dsimp only
      have hlt : h < p.nextHandle := hp.avail_lt h hmem
      have hnodup := hp.avail_nodup
      rw [hav] at hnodup
      have hnotmem : h ∉ rest := (List.nodup_cons.mp hnodup).1
      have hrestnodup : rest.Nodup := (List.nodup_cons.mp hnodup).2
      have ha := hp.active_eq
      rw [Pool.inUseCount] at ha
      have hc := hp.conserve
      rw [Pool.inUseCount, hav] at hc
      have hcount := count_set_true p.inUse p.nextHandle h hlt hflag
      refine ⟨?_, ?_, hp.inst_le, hrestnodup, ?_, ?_, ?_, ?_, ?_, ?_⟩
      · show p.totalActive + 1 = _
        rw [Pool.inUseCount]
        dsimp only
        rw [hcount, ha]
        push_cast
        ring
      · show rest.length ≤ p.poolSize
        have := hp.avail_le
        rw [hav] at this
        simp only [List.length_cons] at this
        omega
      · intro k hk
        dsimp only at hk ⊢
        have hkne : k ≠ h := fun he => hnotmem (he ▸ hk)
        rw [if_neg hkne]
        exact hp.avail_flags k (by rw [hav]; exact List.mem_cons_of_mem h hk)
      · intro k hk
        dsimp only at hk ⊢
        exact hp.avail_lt k (by rw [hav]; exact List.mem_cons_of_mem h hk)
      · intro k hk hg
        dsimp only at hk hg ⊢
        exact hp.avail_pooled k (by rw [hav]; exact List.mem_cons_of_mem h hk) hg
      · intro k hge
        dsimp only at hge
        show (if k = h then true else p.inUse k) = false
        have hkne : k ≠ h := by omega
        rw [if_neg hkne]
        exact hp.fresh k hge
      · intro k hin hg
        dsimp only at hin hg
        by_cases hkne : k = h
        · subst hkne
          exact hp.avail_pooled k hmem hg
        · rw [if_neg hkne] at hin
          exact hp.pooled k hin hg
      · show p.instances.length ≤ rest.length + _
        rw [Pool.inUseCount]
        dsimp only
        rw [hcount]
        simp only [List.length_cons] at hc
        omega

/-- The invariant is preserved by Put. -/
theorem poolInv_put (p : PoolState) (inst : Option ℕ) (now : ℤ) (hp : PoolInv p) :
    PoolInv (Pool.Put p inst now) := by
  cases inst with
  | none => exact hp
  | some h =>
      rw [Pool.Put]
      dsimp only
      by_cases hin : p.inUse h = true
      · rw [if_pos hin]
        have hlt : h < p.nextHandle := by
          by_contra hge
          rw [hp.fresh h (by omega)] at hin
          exact Bool.false_ne_true hin
        have hnotmem : h ∉ p.available := fun hmem =>
          Bool.false_ne_true ((hp.avail_flags h hmem) ▸ hin)
        have hcount := count_set_false p.inUse p.nextHandle h hlt hin
        have ha := hp.active_eq
        rw [Pool.inUseCount] at ha
        have hc := hp.conserve
        rw [Pool.inUseCount] at hc
        by_cases hroom : p.available.length < p.poolSize
        · rw [if_pos hroom]
          refine ⟨?_, ?_, hp.inst_le, ?_, ?_, ?_, ?_, ?_, ?_, ?_⟩
          · show p.totalActive - 1 = _
            rw [Pool.inUseCount]
            dsimp only
            omega
          · show (p.available ++ [h]).length ≤ p.poolSize
            simp only [List.length_append, List.length_singleton]
            omega
          · show (p.available ++ [h]).Nodup
            exact List.Nodup.append hp.avail_nodup (List.nodup_singleton h)
              (fun a ha1 ha2 => hnotmem (by
                have : a = h := by simpa using ha2
                exact this ▸ ha1))
          · intro k hk
            dsimp only at hk ⊢
            by_cases hkh : k = h
            · rw [if_pos hkh]
            · rw [if_neg hkh]
              rcases List.mem_append.mp hk with hk' | hk'
              · exact hp.avail_flags k hk'
              · exact absurd (by simpa using hk') hkh
          · intro k hk
            dsimp only at hk ⊢
            rcases List.mem_append.mp hk with hk' | hk'
            · exact hp.avail_lt k hk'
            · have : k = h := by simpa using hk'
              omega
          · intro k hk hg
            dsimp only at hk hg ⊢
            rcases List.mem_append.mp hk with hk' | hk'
            · exact hp.avail_pooled k hk' hg
            · have hke : k = h := by simpa using hk'
              subst hke
              exact hp.pooled k hin hg
          · intro k hge
            dsimp only at hge ⊢
            have hkne : k ≠ h := by omega
            rw [if_neg hkne]
            exact hp.fresh k hge
          · intro k hku hg
            dsimp only at hku hg ⊢
            by_cases hkne : k = h
            · rw [if_pos hkne] at hku
              exact absurd hku (by simp)
            · rw [if_neg hkne] at hku
              exact hp.pooled k hku hg
          · show p.instances.length ≤ (p.available ++ [h]).length + _
            rw [Pool.inUseCount]
            dsimp only
            simp only [List.length_append, List.length_singleton]
            omega
        · rw [if_neg hroom]
          refine ⟨?_, ?_, hp.inst_le, ?_, ?_, ?_, ?_, ?_, ?_, ?_⟩
          · show p.totalActive - 1 = _
            rw [Pool.inUseCount]
            dsimp only
            omega
          · show p.available.length ≤ p.poolSize
            exact hp.avail_le
          · show p.available.Nodup
            exact hp.avail_nodup
          · intro k hk
            dsimp only at hk ⊢
            have hkne : k ≠ h := fun he => hnotmem (he ▸ hk)
            rw [if_neg hkne]
            exact hp.avail_flags k hk
          · intro k hk
            dsimp only at hk ⊢
            exact hp.avail_lt k hk
          · intro k hk hg
            dsimp only at hk hg ⊢
            exact hp.avail_pooled k hk hg
          · intro k hge
            dsimp only at hge ⊢
            have hkne : k ≠ h := by omega
            rw [if_neg hkne]
            exact hp.fresh k hge
          · intro k hku hg
            dsimp only at hku hg ⊢
            by_cases hkne : k = h
            · rw [if_pos hkne] at hku
              exact absurd hku (by simp)
            · rw [if_neg hkne] at hku
              exact hp.pooled k hku hg
          · show p.instances.length ≤ p.available.length + _
            rw [Pool.inUseCount]
            dsimp only
            have hfull : p.poolSize ≤ p.available.length := by omega
            have := hp.inst_le
            omega
      · rw [if_neg hin]
        exact hp

/-- Every reachable pool state satisfies the invariant. -/
theorem reach_poolInv {p : PoolState} (hp : Pool.Reach p) : PoolInv p := by
  induction hp with
  | init poolSize created now h1 h2 => exact poolInv_init poolSize created now h2
  | step_get now _ ih => exact poolInv_get _ now ih
  | step_put inst now _ ih => exact poolInv_put _ inst now ih

/-- Under the invariant, the in-use count is bounded by the pool size
plus the number of outstanding transient instances. -/
theorem inUseCount_le_poolSize_add_transient (p : PoolState) (hp : PoolInv p) :
    Pool.inUseCount p ≤ p.poolSize + Pool.transientCount p := by
  classical
  have hsplit :
      (((Finset.range p.nextHandle).filter (fun h => p.inUse h = true)).filter
          (fun h => p.goID h = -1)).card
        + (((Finset.range p.nextHandle).filter (fun h => p.inUse h = true)).filter
          (fun h => ¬ p.goID h = -1)).card
      = Pool.inUseCount p :=
    Finset.filter_card_add_filter_neg_card_eq_card (fun h => p.goID h = -1)
  have htrans : (((Finset.range p.nextHandle).filter (fun h => p.inUse h = true)).filter
      (fun h => p.goID h = -1)).card = Pool.transientCount p := by
    rw [Finset.filter_filter]
    rfl
  have hpooled : (((Finset.range p.nextHandle).filter (fun h => p.inUse h = true)).filter
      (fun h => ¬ p.goID h = -1)).card ≤ p.instances.length := by
    refine le_trans (Finset.card_le_card ?_) (List.toFinset_card_le p.instances)
    intro k hk
    simp only [Finset.mem_filter, Finset.mem_range] at hk
    exact List.mem_toFinset.mpr (hp.pooled k hk.1.2 hk.2)
  have := hp.inst_le
  omega

/-- C9 as amended: for every reachable pool state, the active counter
equals the number of instances whose in-use flag is 1, and never
exceeds pool_size plus the number of outstanding transient instances;
at every quiescent point available_count + active_count is at least
total_instances as reported by GetStats, with equality whenever
initialization built all pool_size instances. -/
theorem claim_C9 (p : PoolState) (hp : Pool.Reach p) :
    p.totalActive = (Pool.inUseCount p : ℤ)
    ∧ (Pool.inUseCount p : ℤ) ≤ (p.poolSize : ℤ) + (Pool.transientCount p : ℤ)
    ∧ (p.totalActive = 0 →
        ((Pool.GetStats p).totalInstances : ℤ)
          ≤ ((Pool.GetStats p).availableCount : ℤ) + (Pool.GetStats p).activeCount
        ∧ (p.instances.length = p.poolSize →
            ((Pool.GetStats p).availableCount : ℤ) + (Pool.GetStats p).activeCount
              = ((Pool.GetStats p).totalInstances : ℤ))) := by
  have hinv := reach_poolInv hp
  refine ⟨hinv.active_eq, ?_, ?_⟩
  · exact_mod_cast inUseCount_le_poolSize_add_transient p hinv
  · intro hq
    have hcnt : Pool.inUseCount p = 0 := by
      have h := hinv.active_eq
      rw [hq] at h
      exact_mod_cast h.symm
    have hcons := hinv.conserve
    rw [hcnt] at hcons
    have hle := hinv.avail_le
    constructor
    · simp only [Pool.GetStats, hq]
      omega
    · intro hfull
      simp only [Pool.GetStats, hq]
      omega

/-- Witness for C9: the fully initialized one-instance pool is
reachable, its counters agree, and at this quiescent point
available_count + active_count equals total_instances. -/
theorem claim_C9_witness :
    (Pool.initPool 1 1 0).totalActive
        = (Pool.inUseCount (Pool.initPool 1 1 0) : ℤ)
    ∧ ((Pool.GetStats (Pool.initPool 1 1 0)).availableCount : ℤ)
          + (Pool.GetStats (Pool.initPool 1 1 0)).activeCount
        = ((Pool.GetStats (Pool.initPool 1 1 0)).totalInstances : ℤ) :=
  have h := claim_C9 (Pool.initPool 1 1 0) (Pool.Reach.init 1 1 0 le_rfl le_rfl)
  ⟨h.1, (h.2.2 rfl).2 rfl⟩

/-- C9 counterexample: with pool_size 2 but only one successfully
built instance (Initialize succeeds with at least one), Get then Get
(transient) then Put (transient re-queued) then Put reaches a
quiescent point where both Gets are matched by completed Puts, yet
available_count + active_count = 2 while total_instances = 1 — the
claimed quiescent identity fails. -/
theorem claim_C9_counterexample :
    (Pool.Get c9pool0 0).1 = .ok 0
    ∧ (Pool.Get c9pool1 0).1 = .ok 1
    ∧ c9pool2.goID 1 = -1
    ∧ c9pool4.totalActive = 0
    ∧ ¬ (((Pool.GetStats c9pool4).availableCount : ℤ)
          + (Pool.GetStats c9pool4).activeCount
        = ((Pool.GetStats c9pool4).totalInstances : ℤ)) :=
  ⟨rfl, rfl, rfl, rfl, by decide⟩

end VoxID
